import Mathlib

/-!
Shallow embedding of the resilience utilities of this repository
(src/utils/CircuitBreaker.ts, src/utils/RateLimiter.ts,
src/utils/RetryHandler.ts) and proofs of the specification claims.

JavaScript errors are modelled as a name (the class, what `instanceof` /
`error.name` distinguishes, called the *kind* here) plus a message.
Time is an explicit parameter (Date.now() becomes a `now` argument).
-/

/-- A JavaScript error value: class name (kind) and message. -/
structure JsError where
  name : String
  message : String
deriving DecidableEq, Repr

/-- The kind of an error is its class name: what callers can inspect
beyond the message text (`instanceof` / `.name`). -/
def errKind (e : JsError) : String := e.name

/-- `new CircuitBreakerError('Circuit breaker is OPEN')`: the class sets
`this.name = 'CircuitBreakerError'`. -/
def circuitOpenError : JsError :=
  { name := "CircuitBreakerError", message := "Circuit breaker is OPEN" }

/-- `new Error('Operation timeout')` from `executeWithTimeout`: a plain
`Error`, so its name is `Error`. -/
def timeoutError : JsError :=
  { name := "Error", message := "Operation timeout" }

/-- `enum CircuitState`. -/
inductive CircuitState where
  | CLOSED
  | OPEN
  | HALF_OPEN
deriving DecidableEq, Repr

open CircuitState

/-- The mutable fields and configuration of a `CircuitBreaker` instance.
The `onStateChange` callback is modelled by recording, for each public
operation, the list of `(from, to)` pairs it is invoked with. -/
structure CircuitBreaker where
  state : CircuitState
  failureCount : Nat
  successCount : Nat
  nextAttempt : Nat
  failureThreshold : Nat
  successThreshold : Nat
  timeout : Nat
  resetTimeout : Nat
deriving DecidableEq, Repr

/-- `new CircuitBreaker(options)` with every option defaulted, at time
`now` (`this.nextAttempt = Date.now()`). -/
def CircuitBreaker.mkDefault (now : Nat) : CircuitBreaker :=
  { state := CLOSED, failureCount := 0, successCount := 0, nextAttempt := now
    failureThreshold := 5, successThreshold := 2
    timeout := 60000, resetTimeout := 30000 }

/-- `setState(newState)`: updates `state` and invokes `onStateChange`
(recorded as an emitted pair) only when the state actually changes. -/
def CircuitBreaker.setState (cb : CircuitBreaker) (newState : CircuitState) :
    CircuitBreaker × List (CircuitState × CircuitState) :=
  if cb.state = newState then (cb, [])
  else ({ cb with state := newState }, [(cb.state, newState)])

/-- `onSuccess()`. -/
def CircuitBreaker.onSuccess (cb : CircuitBreaker) :
    CircuitBreaker × List (CircuitState × CircuitState) :=
  let cb := { cb with failureCount := 0 }
  if cb.state = HALF_OPEN then
    let cb := { cb with successCount := cb.successCount + 1 }
    if cb.successCount ≥ cb.successThreshold then
      let p := cb.setState CLOSED
      ({ p.1 with successCount := 0 }, p.2)
    else (cb, [])
  else (cb, [])

/-- `onFailure()` at time `now`. -/
def CircuitBreaker.onFailure (cb : CircuitBreaker) (now : Nat) :
    CircuitBreaker × List (CircuitState × CircuitState) :=
  let cb := { cb with failureCount := cb.failureCount + 1, successCount := 0 }
  if cb.state = HALF_OPEN then
    let p := cb.setState OPEN
    ({ p.1 with nextAttempt := now + p.1.resetTimeout }, p.2)
  else if cb.failureCount ≥ cb.failureThreshold then
    let p := cb.setState OPEN
    ({ p.1 with nextAttempt := now + p.1.resetTimeout }, p.2)
  else (cb, [])

/-- The outcome of racing the wrapped operation against the per-call
timeout: the operation resolves with a value, rejects with an error, or
the timeout fires first. -/
inductive Outcome (α : Type) where
  | success (v : α)
  | failure (e : JsError)
  | timeout
deriving DecidableEq, Repr

/-- The observable result of one `execute` call: the new breaker, the
`onStateChange` invocations in order, whether the wrapped operation was
invoked, and the returned value or thrown error. -/
structure StepResult (α : Type) where
  cb : CircuitBreaker
  events : List (CircuitState × CircuitState)
  invoked : Bool
  result : Except JsError α
deriving Repr

/-- The `try { await executeWithTimeout(fn) ... }` part of `execute`:
the operation is invoked; on success `onSuccess` runs and the value is
returned, on rejection or timeout `onFailure` runs and the error (the
operation's own, or `new Error('Operation timeout')`) is rethrown. -/
def CircuitBreaker.runInvoke (cb : CircuitBreaker) (now : Nat) (o : Outcome α) :
    StepResult α :=
  match o with
  | .success v =>
      let p := cb.onSuccess
      { cb := p.1, events := p.2, invoked := true, result := .ok v }
  | .failure e =>
      let p := cb.onFailure now
      { cb := p.1, events := p.2, invoked := true, result := .error e }
  | .timeout =>
      let p := cb.onFailure now
      { cb := p.1, events := p.2, invoked := true, result := .error timeoutError }

/-- `execute(fn)` at time `now`, where the race of `fn` against the
per-call timer would produce outcome `o`. -/
def CircuitBreaker.execute (cb : CircuitBreaker) (now : Nat) (o : Outcome α) :
    StepResult α :=
  if cb.state = OPEN then
    if now < cb.nextAttempt then
      { cb := cb, events := [], invoked := false, result := .error circuitOpenError }
    else
      let p := cb.setState HALF_OPEN
      let r := p.1.runInvoke now o
      { r with events := p.2 ++ r.events }
  else cb.runInvoke now o

/-- `reset()` at time `now`. -/
def CircuitBreaker.reset (cb : CircuitBreaker) (now : Nat) :
    CircuitBreaker × List (CircuitState × CircuitState) :=
  let p := cb.setState CLOSED
  ({ p.1 with failureCount := 0, successCount := 0, nextAttempt := now }, p.2)

/-- `forceOpen()` at time `now`. -/
def CircuitBreaker.forceOpen (cb : CircuitBreaker) (now : Nat) :
    CircuitBreaker × List (CircuitState × CircuitState) :=
  let p := cb.setState OPEN
  ({ p.1 with nextAttempt := now + p.1.resetTimeout }, p.2)

/-- `forceClose()` delegates to `reset()`. -/
def CircuitBreaker.forceClose (cb : CircuitBreaker) (now : Nat) :
    CircuitBreaker × List (CircuitState × CircuitState) :=
  cb.reset now

/-- `getFailureCount()`. -/
def CircuitBreaker.getFailureCount (cb : CircuitBreaker) : Nat := cb.failureCount

/-- Iterated failing `execute` calls at a fixed time `now`, all with the
wrapped operation rejecting with error `e`. -/
def failN (cb : CircuitBreaker) (now : Nat) (e : JsError) : Nat → CircuitBreaker
  | 0 => cb
  | n + 1 => ((failN cb now e n).execute (α := Unit) now (.failure e)).cb

/-- Iterated successful `execute` calls at a fixed time `now`, all with
the wrapped operation resolving to `v`. -/
def succN (cb : CircuitBreaker) (now : Nat) (v : α) : Nat → CircuitBreaker
  | 0 => cb
  | n + 1 => ((succN cb now v n).execute now (.success v)).cb

/-!
RateLimiter (src/utils/RateLimiter.ts). JavaScript numbers carry exact
fractional token counts here; they are modelled as rationals.
Timestamps (`Date.now()`) are rationals too, in milliseconds.
-/

/-- The mutable fields and configuration of a `RateLimiter` instance. -/
structure RateLimiter where
  maxTokens : ℚ
  tokens : ℚ
  refillRate : ℚ
  lastRefill : ℚ
deriving DecidableEq, Repr

/-- `new RateLimiter(options)` at time `now`: the bucket starts full. -/
def RateLimiter.mk0 (maxTokens refillRate now : ℚ) : RateLimiter :=
  { maxTokens := maxTokens, tokens := maxTokens, refillRate := refillRate
    lastRefill := now }

/-- `refill()` at time `now`. -/
def RateLimiter.refill (rl : RateLimiter) (now : ℚ) : RateLimiter :=
  let timePassed := now - rl.lastRefill
  let tokensToAdd := timePassed / 1000 * rl.refillRate
  { rl with tokens := min rl.maxTokens (rl.tokens + tokensToAdd), lastRefill := now }

/-- `tryAcquire(tokens)` at time `now`: returns the grant decision and
the updated limiter. -/
def RateLimiter.tryAcquire (rl : RateLimiter) (now : ℚ) (n : ℚ) :
    Bool × RateLimiter :=
  let rl := rl.refill now
  if rl.tokens ≥ n then (true, { rl with tokens := rl.tokens - n })
  else (false, rl)

/-- `getAvailableTokens()` at time `now`: refills, then returns
`Math.floor(this.tokens)` along with the updated limiter. -/
def RateLimiter.getAvailableTokens (rl : RateLimiter) (now : ℚ) :
    Int × RateLimiter :=
  let rl := rl.refill now
  (⌊rl.tokens⌋, rl)

/-- `reset()` at time `now`. -/
def RateLimiter.resetRL (rl : RateLimiter) (now : ℚ) : RateLimiter :=
  { rl with tokens := rl.maxTokens, lastRefill := now }

/-- The state effect of `acquire(n)`: a polling loop of `tryAcquire`
calls, one per element of `times` (the wall-clock instants of the
polls), ending when one is granted or the list runs out. -/
def RateLimiter.acquirePolls (rl : RateLimiter) (n : ℚ) :
    List ℚ → RateLimiter
  | [] => rl
  | t :: ts =>
      let p := rl.tryAcquire t n
      if p.1 then p.2 else p.2.acquirePolls n ts

/-- The invariant of claim C6: the token count stays within
`[0, capacity]`; the refill rate being nonnegative is part of a sane
configuration and is carried along. -/
def RLInv (rl : RateLimiter) : Prop :=
  0 ≤ rl.tokens ∧ rl.tokens ≤ rl.maxTokens ∧ 0 ≤ rl.refillRate

instance (rl : RateLimiter) : Decidable (RLInv rl) := by
  unfold RLInv; infer_instance

/-!
RetryHandler (src/utils/RetryHandler.ts). The operation is modelled as
a function from the attempt index (0-based) to that attempt's outcome.
`execute` and `executeSync` become a recursion over the `while
(attempt <= maxRetries)` loop; the recorded `calls` counts invocations
of the operation, `onRetryCalls` the `(attempt + 1, error)` arguments
passed to `onRetry`, and `sleeps` the backoff delays awaited.
-/

/-- The immutable configuration of a `RetryHandler`. -/
structure RetryConfig where
  maxRetries : Nat
  initialDelay : ℚ
  maxDelay : ℚ
  exponentialBase : ℚ
  shouldRetry : JsError → Bool

/-- The default configuration (`maxRetries=3`, `initialDelay=1000`,
`maxDelay=30000`, `exponentialBase=2`, always retry). -/
def RetryConfig.default : RetryConfig :=
  { maxRetries := 3, initialDelay := 1000, maxDelay := 30000
    exponentialBase := 2, shouldRetry := fun _ => true }

/-- `calculateDelay(attempt)`. -/
def RetryConfig.calculateDelay (cfg : RetryConfig) (attempt : Nat) : ℚ :=
  min (cfg.initialDelay * cfg.exponentialBase ^ attempt) cfg.maxDelay

/-- The observable result of `execute` / `executeSync`. -/
structure RetryResult (α : Type) where
  result : Except JsError α
  calls : Nat
  onRetryCalls : List (Nat × JsError)
  sleeps : List ℚ
deriving Repr

/-- The `while (attempt <= maxRetries)` loop of `execute`, entered at
attempt index `attempt`. The guard-false branch corresponds to the
`throw lastError!` after the loop; it is unreachable from `attempt = 0`
(there `lastError` is still undefined, modelled as an undefined error). -/
def retryLoop (cfg : RetryConfig) (outcomes : Nat → Except JsError α)
    (attempt : Nat) : RetryResult α :=
  if h : attempt ≤ cfg.maxRetries then
    match outcomes attempt with
    | .ok v => { result := .ok v, calls := 1, onRetryCalls := [], sleeps := [] }
    | .error e =>
        if attempt = cfg.maxRetries ∨ ¬ cfg.shouldRetry e then
          { result := .error e, calls := 1, onRetryCalls := [], sleeps := [] }
        else
          let r := retryLoop cfg outcomes (attempt + 1)
          { result := r.result, calls := r.calls + 1
            onRetryCalls := (attempt + 1, e) :: r.onRetryCalls
            sleeps := cfg.calculateDelay attempt :: r.sleeps }
  else
    { result := .error ⟨"undefined", "undefined"⟩, calls := 0
      onRetryCalls := [], sleeps := [] }
termination_by cfg.maxRetries + 1 - attempt
decreasing_by simp_all; omega

/-- `execute(fn)`. -/
def RetryConfig.execute (cfg : RetryConfig) (outcomes : Nat → Except JsError α) :
    RetryResult α :=
  retryLoop cfg outcomes 0

/-- The `while (attempt <= maxRetries)` loop of `executeSync`: the same
logic with no backoff sleep. -/
def retryLoopSync (cfg : RetryConfig) (outcomes : Nat → Except JsError α)
    (attempt : Nat) : RetryResult α :=
  if h : attempt ≤ cfg.maxRetries then
    match outcomes attempt with
    | .ok v => { result := .ok v, calls := 1, onRetryCalls := [], sleeps := [] }
    | .error e =>
        if attempt = cfg.maxRetries ∨ ¬ cfg.shouldRetry e then
          { result := .error e, calls := 1, onRetryCalls := [], sleeps := [] }
        else
          let r := retryLoopSync cfg outcomes (attempt + 1)
          { result := r.result, calls := r.calls + 1
            onRetryCalls := (attempt + 1, e) :: r.onRetryCalls
            sleeps := r.sleeps }
  else
    { result := .error ⟨"undefined", "undefined"⟩, calls := 0
      onRetryCalls := [], sleeps := [] }
termination_by cfg.maxRetries + 1 - attempt
decreasing_by simp_all; omega

/-- `executeSync(fn)`. -/
def RetryConfig.executeSync (cfg : RetryConfig) (outcomes : Nat → Except JsError α) :
    RetryResult α :=
  retryLoopSync cfg outcomes 0

/-!
Helper lemmas for one `execute` step of the CircuitBreaker, by state.
-/

/-- In CLOSED, a failure below the threshold only bumps `failureCount`
and zeroes `successCount`. -/
lemma execute_closed_fail_lt (cb : CircuitBreaker) (now : Nat) (e : JsError)
    (h1 : cb.state = CLOSED) (h2 : cb.failureCount + 1 < cb.failureThreshold) :
    (cb.execute (α := α) now (.failure e)) =
      { cb := { cb with failureCount := cb.failureCount + 1, successCount := 0 }
        events := [], invoked := true, result := .error e } := by
  simp [CircuitBreaker.execute, CircuitBreaker.runInvoke, CircuitBreaker.onFailure,
    CircuitBreaker.setState, h1, Nat.not_le_of_lt h2]

/-- In CLOSED, the failure that reaches the threshold opens the circuit. -/
lemma execute_closed_fail_ge (cb : CircuitBreaker) (now : Nat) (e : JsError)
    (h1 : cb.state = CLOSED) (h2 : cb.failureThreshold ≤ cb.failureCount + 1) :
    (cb.execute (α := α) now (.failure e)) =
      { cb := { cb with state := OPEN, failureCount := cb.failureCount + 1,
                        successCount := 0, nextAttempt := now + cb.resetTimeout }
        events := [(CLOSED, OPEN)], invoked := true, result := .error e } := by
  simp [CircuitBreaker.execute, CircuitBreaker.runInvoke, CircuitBreaker.onFailure,
    CircuitBreaker.setState, h1, h2]

/-- In CLOSED, a success just zeroes `failureCount`. -/
lemma execute_closed_succ (cb : CircuitBreaker) (now : Nat) (v : α)
    (h1 : cb.state = CLOSED) :
    (cb.execute now (.success v)) =
      { cb := { cb with failureCount := 0 }
        events := [], invoked := true, result := .ok v } := by
  simp [CircuitBreaker.execute, CircuitBreaker.runInvoke, CircuitBreaker.onSuccess,
    CircuitBreaker.setState, h1]

/-- In HALF_OPEN, a success below the success threshold bumps
`successCount` and zeroes `failureCount`. -/
lemma execute_halfopen_succ_lt (cb : CircuitBreaker) (now : Nat) (v : α)
    (h1 : cb.state = HALF_OPEN) (h2 : cb.successCount + 1 < cb.successThreshold) :
    (cb.execute now (.success v)) =
      { cb := { cb with failureCount := 0, successCount := cb.successCount + 1 }
        events := [], invoked := true, result := .ok v } := by
  simp [CircuitBreaker.execute, CircuitBreaker.runInvoke, CircuitBreaker.onSuccess,
    CircuitBreaker.setState, h1, Nat.not_le_of_lt h2]

/-- In HALF_OPEN, the success that reaches the success threshold closes
the circuit and zeroes both counters. -/
lemma execute_halfopen_succ_ge (cb : CircuitBreaker) (now : Nat) (v : α)
    (h1 : cb.state = HALF_OPEN) (h2 : cb.successThreshold ≤ cb.successCount + 1) :
    (cb.execute now (.success v)) =
      { cb := { cb with state := CLOSED, failureCount := 0, successCount := 0 }
        events := [(HALF_OPEN, CLOSED)], invoked := true, result := .ok v } := by
  simp [CircuitBreaker.execute, CircuitBreaker.runInvoke, CircuitBreaker.onSuccess,
    CircuitBreaker.setState, h1, h2]

/-- In HALF_OPEN, any failure reopens the circuit. -/
lemma execute_halfopen_fail (cb : CircuitBreaker) (now : Nat) (e : JsError)
    (h1 : cb.state = HALF_OPEN) :
    (cb.execute (α := α) now (.failure e)) =
      { cb := { cb with state := OPEN, failureCount := cb.failureCount + 1,
                        successCount := 0, nextAttempt := now + cb.resetTimeout }
        events := [(HALF_OPEN, OPEN)], invoked := true, result := .error e } := by
  simp [CircuitBreaker.execute, CircuitBreaker.runInvoke, CircuitBreaker.onFailure,
    CircuitBreaker.setState, h1]

/-- Iterated failures from a fresh CLOSED breaker, while strictly below
the threshold: the state stays CLOSED, `failureCount` counts the
failures, and everything else is untouched. -/
lemma failN_below (cb : CircuitBreaker) (now : Nat) (e : JsError)
    (h1 : cb.state = CLOSED) (h2 : cb.failureCount = 0) :
    ∀ j, j < cb.failureThreshold →
      failN cb now e j =
        { cb with failureCount := j, successCount := if j = 0 then cb.successCount else 0 } := by
  obtain ⟨s, fc, sc, na, ft, st, t, rt⟩ := cb
  obtain rfl : s = CLOSED := h1
  obtain rfl : fc = 0 := h2
  intro j
  induction j with
  | zero =>
      intro _
      rfl
  | succ n ih =>
      intro hlt
      have hn : n < ft := Nat.lt_of_succ_lt hlt
      have hrec := ih hn
      show (CircuitBreaker.execute (failN _ now e n) now (Outcome.failure e)).cb = _
      rw [hrec, execute_closed_fail_lt _ now e rfl (by simpa using hlt)]
      simp

/-- C1 : For every failureThreshold k >= 1, a CircuitBreaker in CLOSED with
failureCount 0 transitions to OPEN (with nextAttempt set to now + resetTimeout)
exactly when the k-th consecutive execute failure occurs; k-1 consecutive
failures followed by one successful execute reset failureCount to 0 and leave
the state CLOSED. -/
theorem closed_threshold_opens (cb : CircuitBreaker) (now k : Nat) (e : JsError) (v : α)
    (h1 : cb.state = CLOSED) (h2 : cb.failureCount = 0)
    (h3 : cb.failureThreshold = k) (h4 : 1 ≤ k) :
    (∀ j, j < k → (failN cb now e j).state = CLOSED ∧ (failN cb now e j).failureCount = j) ∧
    (failN cb now e k).state = OPEN ∧
    (failN cb now e k).nextAttempt = now + cb.resetTimeout ∧
    ((failN cb now e (k - 1)).execute now (.success v)).cb.failureCount = 0 ∧
    ((failN cb now e (k - 1)).execute now (.success v)).cb.state = CLOSED := by
  obtain ⟨m, rfl⟩ : ∃ m, k = m + 1 := ⟨k - 1, by omega⟩
  have hbelow : ∀ j, j < m + 1 →
      failN cb now e j =
        { cb with failureCount := j, successCount := if j = 0 then cb.successCount else 0 } :=
    fun j hj => failN_below cb now e h1 h2 j (by omega)
  have hrec := hbelow m (Nat.lt_succ_self m)
  have hlast : failN cb now e (m + 1) =
      ((failN cb now e m).execute (α := Unit) now (.failure e)).cb := rfl
  have hm1 : m + 1 - 1 = m := by omega
  refine ⟨fun j hj => by rw [hbelow j hj]; exact ⟨h1, rfl⟩, ?_, ?_, ?_, ?_⟩
  · rw [hlast, hrec, execute_closed_fail_ge _ now e (by simpa using h1) (by simp; omega)]
  · rw [hlast, hrec, execute_closed_fail_ge _ now e (by simpa using h1) (by simp; omega)]
  · rw [hm1, hrec, execute_closed_succ _ now v (by simpa using h1)]
  · rw [hm1, hrec, execute_closed_succ _ now v (by simpa using h1)]
    simpa using h1

/-- Witness for C1 at k = 3. -/
theorem closed_threshold_opens_witness :
    (∀ j, j < 3 →
      (failN { CircuitBreaker.mkDefault 0 with failureThreshold := 3 } 7 ⟨"Error", "boom"⟩ j).state = CLOSED ∧
      (failN { CircuitBreaker.mkDefault 0 with failureThreshold := 3 } 7 ⟨"Error", "boom"⟩ j).failureCount = j) ∧
    (failN { CircuitBreaker.mkDefault 0 with failureThreshold := 3 } 7 ⟨"Error", "boom"⟩ 3).state = OPEN ∧
    (failN { CircuitBreaker.mkDefault 0 with failureThreshold := 3 } 7 ⟨"Error", "boom"⟩ 3).nextAttempt
      = 7 + { CircuitBreaker.mkDefault 0 with failureThreshold := 3 }.resetTimeout ∧
    ((failN { CircuitBreaker.mkDefault 0 with failureThreshold := 3 } 7 ⟨"Error", "boom"⟩ (3 - 1)).execute
        7 (.success (37 : Nat))).cb.failureCount = 0 ∧
    ((failN { CircuitBreaker.mkDefault 0 with failureThreshold := 3 } 7 ⟨"Error", "boom"⟩ (3 - 1)).execute
        7 (.success (37 : Nat))).cb.state = CLOSED :=
  closed_threshold_opens _ 7 3 ⟨"Error", "boom"⟩ 37 (by decide) (by decide) (by decide) (by decide)

/-- In OPEN before `nextAttempt`, `execute` short-circuits. -/
lemma execute_open_blocked (cb : CircuitBreaker) (now : Nat) (o : Outcome α)
    (h1 : cb.state = OPEN) (h2 : now < cb.nextAttempt) :
    cb.execute now o =
      { cb := cb, events := [], invoked := false, result := .error circuitOpenError } := by
  simp [CircuitBreaker.execute, h1, h2]

/-- C2 : While OPEN before nextAttempt, execute rejects with the
distinguished circuit-open error, never invokes the operation, and leaves the
breaker (state, counters, nextAttempt) unchanged. -/
theorem open_rejects (cb : CircuitBreaker) (now : Nat) (o : Outcome α)
    (h1 : cb.state = OPEN) (h2 : now < cb.nextAttempt) :
    cb.execute now o =
      { cb := cb, events := [], invoked := false, result := .error circuitOpenError } :=
  execute_open_blocked cb now o h1 h2

/-- Witness for C2. -/
theorem open_rejects_witness :
    ({ CircuitBreaker.mkDefault 0 with state := OPEN, nextAttempt := 10 } : CircuitBreaker).execute
        5 (.success (1 : Nat)) =
      { cb := { CircuitBreaker.mkDefault 0 with state := OPEN, nextAttempt := 10 }
        events := [], invoked := false, result := .error circuitOpenError } :=
  open_rejects _ 5 _ (by decide) (by decide)

/-- Iterated successes in HALF_OPEN, while strictly below the success
threshold: the state stays HALF_OPEN, `successCount` counts the
successes, `failureCount` is zeroed by the first success. -/
lemma succN_below (cb : CircuitBreaker) (now : Nat) (v : α)
    (h1 : cb.state = HALF_OPEN) (h2 : cb.successCount = 0) :
    ∀ j, j < cb.successThreshold →
      succN cb now v j =
        { cb with successCount := j, failureCount := if j = 0 then cb.failureCount else 0 } := by
  obtain ⟨s, fc, sc, na, ft, st, t, rt⟩ := cb
  obtain rfl : s = HALF_OPEN := h1
  obtain rfl : sc = 0 := h2
  intro j
  induction j with
  | zero =>
      intro _
      rfl
  | succ n ih =>
      intro hlt
      have hn : n < st := Nat.lt_of_succ_lt hlt
      have hrec := ih hn
      show (CircuitBreaker.execute (succN _ now v n) now (Outcome.success v)).cb = _
      rw [hrec, execute_halfopen_succ_lt _ now v rfl (by simpa using hlt)]
      simp

/-- C3 : In OPEN with now >= nextAttempt, execute transitions to HALF_OPEN
before invoking the operation; in HALF_OPEN, successThreshold consecutive
successful calls close the circuit with both counters reset to 0, and any
single failure reopens it with successCount 0 and nextAttempt = now +
resetTimeout. -/
theorem halfopen_probe (cb : CircuitBreaker) (now s : Nat) (e : JsError) (v : α) (o : Outcome α)
    (h1 : cb.state = OPEN) (h2 : cb.nextAttempt ≤ now) :
    (cb.execute now o =
      (let r := CircuitBreaker.runInvoke { cb with state := HALF_OPEN } now o
       { r with events := (OPEN, HALF_OPEN) :: r.events })) ∧
    (∀ cb' : CircuitBreaker, cb'.state = HALF_OPEN → cb'.successCount = 0 →
      cb'.successThreshold = s → 1 ≤ s →
      (∀ j, j < s → (succN cb' now v j).state = HALF_OPEN ∧
        (succN cb' now v j).successCount = j) ∧
      (succN cb' now v s).state = CLOSED ∧
      (succN cb' now v s).failureCount = 0 ∧
      (succN cb' now v s).successCount = 0) ∧
    (∀ cb' : CircuitBreaker, cb'.state = HALF_OPEN →
      ((cb'.execute (α := α) now (.failure e)).cb.state = OPEN ∧
       (cb'.execute (α := α) now (.failure e)).cb.successCount = 0 ∧
       (cb'.execute (α := α) now (.failure e)).cb.nextAttempt = now + cb'.resetTimeout)) := by
  refine ⟨?_, ?_, ?_⟩
  · simp [CircuitBreaker.execute, CircuitBreaker.setState, h1, Nat.not_lt_of_le h2]
  · intro cb' h1' h2' h3' h4'
    obtain ⟨m, rfl⟩ : ∃ m, s = m + 1 := ⟨s - 1, by omega⟩
    have hbelow : ∀ j, j < m + 1 →
        succN cb' now v j =
          { cb' with successCount := j, failureCount := if j = 0 then cb'.failureCount else 0 } :=
      fun j hj => succN_below cb' now v h1' h2' j (by omega)
    have hrec := hbelow m (Nat.lt_succ_self m)
    have hlast : succN cb' now v (m + 1) =
        ((succN cb' now v m).execute now (.success v)).cb := rfl
    refine ⟨fun j hj => by rw [hbelow j hj]; exact ⟨h1', rfl⟩, ?_, ?_, ?_⟩
    · rw [hlast, hrec, execute_halfopen_succ_ge _ now v (by simpa using h1') (by simp; omega)]
    · rw [hlast, hrec, execute_halfopen_succ_ge _ now v (by simpa using h1') (by simp; omega)]
    · rw [hlast, hrec, execute_halfopen_succ_ge _ now v (by simpa using h1') (by simp; omega)]
  · intro cb' h1'
    rw [execute_halfopen_fail _ now e h1']
    exact ⟨rfl, rfl, rfl⟩

/-- Witness for C3: a breaker opened at time 0 with nextAttempt 10,
probed at time 10 with successThreshold 2. -/
theorem halfopen_probe_witness :
    (({ CircuitBreaker.mkDefault 0 with state := OPEN, nextAttempt := 10 } : CircuitBreaker).execute
        10 (.success (4 : Nat)) =
      (let r := CircuitBreaker.runInvoke
          { ({ CircuitBreaker.mkDefault 0 with state := OPEN, nextAttempt := 10 } : CircuitBreaker)
            with state := HALF_OPEN } 10 (.success (4 : Nat))
       { r with events := (OPEN, HALF_OPEN) :: r.events })) ∧
    (∀ cb' : CircuitBreaker, cb'.state = HALF_OPEN → cb'.successCount = 0 →
      cb'.successThreshold = 2 → 1 ≤ 2 →
      (∀ j, j < 2 → (succN cb' 10 (4 : Nat) j).state = HALF_OPEN ∧
        (succN cb' 10 (4 : Nat) j).successCount = j) ∧
      (succN cb' 10 (4 : Nat) 2).state = CLOSED ∧
      (succN cb' 10 (4 : Nat) 2).failureCount = 0 ∧
      (succN cb' 10 (4 : Nat) 2).successCount = 0) ∧
    (∀ cb' : CircuitBreaker, cb'.state = HALF_OPEN →
      ((cb'.execute (α := Nat) 10 (.failure ⟨"Error", "boom"⟩)).cb.state = OPEN ∧
       (cb'.execute (α := Nat) 10 (.failure ⟨"Error", "boom"⟩)).cb.successCount = 0 ∧
       (cb'.execute (α := Nat) 10 (.failure ⟨"Error", "boom"⟩)).cb.nextAttempt
         = 10 + cb'.resetTimeout)) :=
  halfopen_probe _ 10 2 ⟨"Error", "boom"⟩ 4 (.success 4) (by decide) (by decide)

/-- `onSuccess` always zeroes `failureCount`, whatever else it does. -/
lemma onSuccess_failureCount (cb : CircuitBreaker) : cb.onSuccess.1.failureCount = 0 := by
  simp only [CircuitBreaker.onSuccess, CircuitBreaker.setState]
  split_ifs <;> rfl

/-- C10 : A failure in HALF_OPEN increments failureCount and carries it
across the transition back to OPEN; failureCount is zeroed only by a
successful execute, reset(), or forceClose() — forceOpen and an OPEN
rejection leave it unchanged. -/
theorem halfopen_failure_keeps_failureCount (cb : CircuitBreaker) (now : Nat)
    (e : JsError) (v : α) (o : Outcome α) (h1 : cb.state = HALF_OPEN) :
    ((cb.execute (α := α) now (.failure e)).cb.getFailureCount = cb.getFailureCount + 1 ∧
     (cb.execute (α := α) now (.failure e)).cb.state = OPEN) ∧
    (∀ cb' : CircuitBreaker, ¬ (cb'.state = OPEN ∧ now < cb'.nextAttempt) →
      (cb'.execute now (.success v)).cb.getFailureCount = 0) ∧
    (∀ cb' : CircuitBreaker, (cb'.reset now).1.getFailureCount = 0) ∧
    (∀ cb' : CircuitBreaker, (cb'.forceClose now).1.getFailureCount = 0) ∧
    (∀ cb' : CircuitBreaker, (cb'.forceOpen now).1.getFailureCount = cb'.getFailureCount) ∧
    (∀ cb' : CircuitBreaker, cb'.state = OPEN → now < cb'.nextAttempt →
      (cb'.execute now o).cb.getFailureCount = cb'.getFailureCount) := by
  refine ⟨?_, ?_, ?_, ?_, ?_, ?_⟩
  · rw [execute_halfopen_fail _ now e h1]
    exact ⟨rfl, rfl⟩
  · intro cb' hno
    rcases Decidable.em (cb'.state = OPEN) with hs | hs
    · have hle : cb'.nextAttempt ≤ now := by
        rcases Nat.lt_or_ge now cb'.nextAttempt with hlt | hge
        · exact absurd ⟨hs, hlt⟩ hno
        · exact hge
      simp [CircuitBreaker.execute, CircuitBreaker.runInvoke, CircuitBreaker.getFailureCount,
        hs, Nat.not_lt_of_le hle, onSuccess_failureCount]
    · simp [CircuitBreaker.execute, CircuitBreaker.runInvoke, CircuitBreaker.getFailureCount,
        hs, onSuccess_failureCount]
  · intro cb'
    simp [CircuitBreaker.reset, CircuitBreaker.getFailureCount]
  · intro cb'
    simp [CircuitBreaker.forceClose, CircuitBreaker.reset, CircuitBreaker.getFailureCount]
  · intro cb'
    simp [CircuitBreaker.forceOpen, CircuitBreaker.setState, CircuitBreaker.getFailureCount]
    split <;> simp
  · intro cb' hs hlt
    rw [execute_open_blocked cb' now o hs hlt]

/-- Witness for C10 with a concrete HALF_OPEN breaker holding
failureCount 4. -/
theorem halfopen_failure_keeps_failureCount_witness :
    ((({ CircuitBreaker.mkDefault 0 with state := HALF_OPEN, failureCount := 4 } : CircuitBreaker).execute
        (α := Nat) 9 (.failure ⟨"Error", "boom"⟩)).cb.getFailureCount
      = ({ CircuitBreaker.mkDefault 0 with state := HALF_OPEN, failureCount := 4 } : CircuitBreaker).getFailureCount + 1 ∧
     (({ CircuitBreaker.mkDefault 0 with state := HALF_OPEN, failureCount := 4 } : CircuitBreaker).execute
        (α := Nat) 9 (.failure ⟨"Error", "boom"⟩)).cb.state = OPEN) ∧
    (∀ cb' : CircuitBreaker, ¬ (cb'.state = OPEN ∧ 9 < cb'.nextAttempt) →
      (cb'.execute 9 (.success (5 : Nat))).cb.getFailureCount = 0) ∧
    (∀ cb' : CircuitBreaker, (cb'.reset 9).1.getFailureCount = 0) ∧
    (∀ cb' : CircuitBreaker, (cb'.forceClose 9).1.getFailureCount = 0) ∧
    (∀ cb' : CircuitBreaker, (cb'.forceOpen 9).1.getFailureCount = cb'.getFailureCount) ∧
    (∀ cb' : CircuitBreaker, cb'.state = OPEN → 9 < cb'.nextAttempt →
      (cb'.execute 9 (.timeout : Outcome Nat)).cb.getFailureCount = cb'.getFailureCount) :=
  halfopen_failure_keeps_failureCount _ 9 ⟨"Error", "boom"⟩ 5 .timeout (by decide)

/-- The timeout branch of the race and an operation rejection drive the
state machine identically (only the thrown error differs). -/
lemma execute_timeout_eq_failure (cb : CircuitBreaker) (now : Nat) (e : JsError) :
    (cb.execute (α := α) now .timeout).cb = (cb.execute (α := α) now (.failure e)).cb ∧
    (cb.execute (α := α) now .timeout).events = (cb.execute (α := α) now (.failure e)).events ∧
    (cb.execute (α := α) now .timeout).invoked = (cb.execute (α := α) now (.failure e)).invoked := by
  unfold CircuitBreaker.execute CircuitBreaker.runInvoke
  split_ifs <;> simp

/-- C5 : onStateChange fires exactly once, with (fromState, toState), per
actual state transition — including the transitions made by execute,
forceOpen, forceClose and reset — and never fires when a failure or success
does not change the state or when setState targets the current state. The
conjuncts enumerate every execute/reset/forceOpen/forceClose case together
with the exact callback list it produces. -/
theorem onStateChange_per_transition (cb : CircuitBreaker) (now : Nat)
    (e : JsError) (v : α) (o : Outcome α) :
    (cb.state = OPEN → now < cb.nextAttempt → (cb.execute now o).events = []) ∧
    (cb.state = CLOSED → (cb.execute now (.success v)).events = []) ∧
    (cb.state = CLOSED → cb.failureCount + 1 < cb.failureThreshold →
      (cb.execute (α := α) now (.failure e)).events = []) ∧
    (cb.state = CLOSED → cb.failureThreshold ≤ cb.failureCount + 1 →
      (cb.execute (α := α) now (.failure e)).events = [(CLOSED, OPEN)]) ∧
    (cb.state = HALF_OPEN → cb.successCount + 1 < cb.successThreshold →
      (cb.execute now (.success v)).events = []) ∧
    (cb.state = HALF_OPEN → cb.successThreshold ≤ cb.successCount + 1 →
      (cb.execute now (.success v)).events = [(HALF_OPEN, CLOSED)]) ∧
    (cb.state = HALF_OPEN →
      (cb.execute (α := α) now (.failure e)).events = [(HALF_OPEN, OPEN)]) ∧
    (cb.state = OPEN → cb.nextAttempt ≤ now →
      (cb.execute now o).events =
        (OPEN, HALF_OPEN) ::
          (CircuitBreaker.runInvoke { cb with state := HALF_OPEN } now o).events) ∧
    ((cb.execute (α := α) now .timeout).events =
      (cb.execute (α := α) now (.failure e)).events) ∧
    ((cb.reset now).2 = if cb.state = CLOSED then [] else [(cb.state, CLOSED)]) ∧
    ((cb.forceClose now).2 = if cb.state = CLOSED then [] else [(cb.state, CLOSED)]) ∧
    ((cb.forceOpen now).2 = if cb.state = OPEN then [] else [(cb.state, OPEN)]) := by
  refine ⟨?_, ?_, ?_, ?_, ?_, ?_, ?_, ?_, ?_, ?_, ?_, ?_⟩
  · intro h1 h2
    rw [execute_open_blocked cb now o h1 h2]
  · intro h1
    rw [execute_closed_succ cb now v h1]
  · intro h1 h2
    rw [execute_closed_fail_lt cb now e h1 h2]
  · intro h1 h2
    rw [execute_closed_fail_ge cb now e h1 h2]
  · intro h1 h2
    rw [execute_halfopen_succ_lt cb now v h1 h2]
  · intro h1 h2
    rw [execute_halfopen_succ_ge cb now v h1 h2]
  · intro h1
    rw [execute_halfopen_fail cb now e h1]
  · intro h1 h2
    simp [CircuitBreaker.execute, CircuitBreaker.setState, h1, Nat.not_lt_of_le h2]
  · exact (execute_timeout_eq_failure cb now e).2.1
  · simp only [CircuitBreaker.reset, CircuitBreaker.setState]
    split_ifs <;> rfl
  · simp only [CircuitBreaker.forceClose, CircuitBreaker.reset, CircuitBreaker.setState]
    split_ifs <;> rfl
  · simp only [CircuitBreaker.forceOpen, CircuitBreaker.setState]
    split_ifs <;> rfl

/-- Witness for C5: the threshold-reaching failure fires the callback
once with (CLOSED, OPEN); a success in CLOSED fires nothing; forceOpen
on an already-OPEN breaker fires nothing. -/
theorem onStateChange_per_transition_witness :
    (({ CircuitBreaker.mkDefault 0 with failureThreshold := 1 } : CircuitBreaker).execute
        (α := Nat) 3 (.failure ⟨"Error", "boom"⟩)).events = [(CLOSED, OPEN)] ∧
    (({ CircuitBreaker.mkDefault 0 with failureThreshold := 1 } : CircuitBreaker).execute
        3 (.success (0 : Nat))).events = [] ∧
    (({ CircuitBreaker.mkDefault 0 with state := OPEN } : CircuitBreaker).forceOpen 3).2
      = (if ({ CircuitBreaker.mkDefault 0 with state := OPEN } : CircuitBreaker).state = OPEN
          then [] else [(({ CircuitBreaker.mkDefault 0 with state := OPEN } : CircuitBreaker).state, OPEN)]) := by
  have h1 := onStateChange_per_transition
    ({ CircuitBreaker.mkDefault 0 with failureThreshold := 1 } : CircuitBreaker) 3
    ⟨"Error", "boom"⟩ (0 : Nat) (.success 0)
  have h2 := onStateChange_per_transition
    ({ CircuitBreaker.mkDefault 0 with state := OPEN } : CircuitBreaker) 3
    ⟨"Error", "boom"⟩ (0 : Nat) (.success 0)
  exact ⟨h1.2.2.2.1 (by decide) (by decide), h1.2.1 (by decide),
    h2.2.2.2.2.2.2.2.2.2.2.2⟩

/-- C4, counterexample : at a concrete CLOSED breaker, the timeout error
thrown by execute is a plain `Error`, the very same kind as an ordinary
underlying operation error such as `new Error('ECONNREFUSED')` — so the
timeout cannot be distinguished from underlying-operation errors by
identity/kind, only by message text. -/
theorem timeout_error_kind_counterexample :
    ((CircuitBreaker.mkDefault 0).execute (α := Nat) 0 .timeout).result = .error timeoutError ∧
    ((CircuitBreaker.mkDefault 0).execute (α := Nat) 0
        (.failure ⟨"Error", "ECONNREFUSED"⟩)).result = .error ⟨"Error", "ECONNREFUSED"⟩ ∧
    errKind timeoutError = errKind ⟨"Error", "ECONNREFUSED"⟩ ∧
    timeoutError ≠ (⟨"Error", "ECONNREFUSED"⟩ : JsError) :=
  ⟨rfl, rfl, rfl, by decide⟩

/-- C4, amended : whenever the operation is actually invoked, a timeout
makes execute throw `new Error('Operation timeout')` — an error kind
distinct from the circuit-open CircuitBreakerError, though not from a
generic underlying `Error` — and the timeout is counted as a failure:
its effect on the breaker state and its onStateChange callbacks are
identical to those of an operation failure. -/
theorem timeout_error_amended (cb : CircuitBreaker) (now : Nat) (e : JsError)
    (h : ¬ (cb.state = OPEN ∧ now < cb.nextAttempt)) :
    (cb.execute (α := α) now .timeout).result = .error timeoutError ∧
    (cb.execute (α := α) now .timeout).invoked = true ∧
    errKind timeoutError ≠ errKind circuitOpenError ∧
    (cb.execute (α := α) now .timeout).cb = (cb.execute (α := α) now (.failure e)).cb ∧
    (cb.execute (α := α) now .timeout).events =
      (cb.execute (α := α) now (.failure e)).events := by
  have heq := execute_timeout_eq_failure (α := α) cb now e
  refine ⟨?_, ?_, by decide, heq.1, heq.2.1⟩
  · rcases Decidable.em (cb.state = OPEN) with hs | hs
    · have hle : cb.nextAttempt ≤ now := by
        rcases Nat.lt_or_ge now cb.nextAttempt with hlt | hge
        · exact absurd ⟨hs, hlt⟩ h
        · exact hge
      simp [CircuitBreaker.execute, CircuitBreaker.runInvoke, hs, Nat.not_lt_of_le hle]
    · simp [CircuitBreaker.execute, CircuitBreaker.runInvoke, hs]
  · rcases Decidable.em (cb.state = OPEN) with hs | hs
    · have hle : cb.nextAttempt ≤ now := by
        rcases Nat.lt_or_ge now cb.nextAttempt with hlt | hge
        · exact absurd ⟨hs, hlt⟩ h
        · exact hge
      simp [CircuitBreaker.execute, CircuitBreaker.runInvoke, hs, Nat.not_lt_of_le hle]
    · simp [CircuitBreaker.execute, CircuitBreaker.runInvoke, hs]

/-- Witness for the amended C4 at a concrete CLOSED breaker. -/
theorem timeout_error_amended_witness :
    ((CircuitBreaker.mkDefault 0).execute (α := Nat) 0 .timeout).result = .error timeoutError ∧
    ((CircuitBreaker.mkDefault 0).execute (α := Nat) 0 .timeout).invoked = true ∧
    errKind timeoutError ≠ errKind circuitOpenError ∧
    ((CircuitBreaker.mkDefault 0).execute (α := Nat) 0 .timeout).cb
      = ((CircuitBreaker.mkDefault 0).execute (α := Nat) 0 (.failure ⟨"Error", "boom"⟩)).cb ∧
    ((CircuitBreaker.mkDefault 0).execute (α := Nat) 0 .timeout).events
      = ((CircuitBreaker.mkDefault 0).execute (α := Nat) 0 (.failure ⟨"Error", "boom"⟩)).events :=
  timeout_error_amended (CircuitBreaker.mkDefault 0) 0 ⟨"Error", "boom"⟩ (by decide)

/-!
RateLimiter lemmas and claims.
-/

/-- `refill` keeps the token count within `[0, capacity]` when time does
not run backwards. -/
lemma refill_inv (rl : RateLimiter) (now : ℚ)
    (h : RLInv rl) (ht : rl.lastRefill ≤ now) : RLInv (rl.refill now) := by
  obtain ⟨h0, h1, h2⟩ := h
  have hadd : 0 ≤ (now - rl.lastRefill) / 1000 * rl.refillRate :=
    mul_nonneg (div_nonneg (by linarith) (by norm_num)) h2
  exact ⟨le_min (h0.trans h1) (by linarith), min_le_left _ _, h2⟩

/-- `tryAcquire` always stamps `lastRefill` with the access time, granted
or not: the refill computation runs before the availability check. -/
lemma tryAcquire_lastRefill (rl : RateLimiter) (now n : ℚ) :
    (rl.tryAcquire now n).2.lastRefill = now := by
  simp only [RateLimiter.tryAcquire, RateLimiter.refill]
  split_ifs <;> rfl

/-- `tryAcquire` keeps the token count within `[0, capacity]`. -/
lemma tryAcquire_inv (rl : RateLimiter) (now n : ℚ)
    (h : RLInv rl) (ht : rl.lastRefill ≤ now) (hn : 0 ≤ n) :
    RLInv (rl.tryAcquire now n).2 := by
  have hr := refill_inv rl now h ht
  obtain ⟨a, b, c⟩ := hr
  simp only [RateLimiter.tryAcquire]
  split_ifs with hge
  · exact ⟨by simpa using sub_nonneg.2 hge, by simp; linarith, by simpa using c⟩
  · exact ⟨a, b, c⟩

/-- The polling loop of `acquire` keeps the token count within
`[0, capacity]` for any nondecreasing sequence of poll instants. -/
lemma acquirePolls_inv (n : ℚ) (hn : 0 ≤ n) :
    ∀ (ts : List ℚ) (rl : RateLimiter), RLInv rl →
      List.Chain (· ≤ ·) rl.lastRefill ts → RLInv (rl.acquirePolls n ts) := by
  intro ts
  induction ts with
  | nil => intro rl h _; exact h
  | cons t ts ih =>
      intro rl h hch
      rcases List.chain_cons.1 hch with ⟨hle, hch'⟩
      have h2 := tryAcquire_inv rl t n h hle hn
      show RLInv (if (rl.tryAcquire t n).1 then (rl.tryAcquire t n).2
        else (rl.tryAcquire t n).2.acquirePolls n ts)
      split_ifs with hg
      · exact h2
      · exact ih _ h2 (by rw [tryAcquire_lastRefill]; exact hch')

/-- C6 : The token count always stays within [0, capacity] under
tryAcquire, the acquire polling loop, getAvailableTokens, reset and refill;
tryAcquire grants exactly when the refilled count is >= n (equality at the
boundary succeeds), and a denial with no elapsed time leaves the token
count unchanged. -/
theorem rate_limiter_invariant (rl : RateLimiter) (now n : ℚ) (ts : List ℚ)
    (hinv : RLInv rl) (ht : rl.lastRefill ≤ now) (hn : 0 ≤ n)
    (hts : List.Chain (· ≤ ·) rl.lastRefill ts) :
    RLInv ((rl.tryAcquire now n).2) ∧
    RLInv (rl.acquirePolls n ts) ∧
    RLInv ((rl.getAvailableTokens now).2) ∧
    RLInv (rl.resetRL now) ∧
    RLInv (rl.refill now) ∧
    ((rl.tryAcquire now n).1 = true ↔ n ≤ (rl.refill now).tokens) ∧
    (now = rl.lastRefill → (rl.tryAcquire now n).1 = false →
      (rl.tryAcquire now n).2.tokens = rl.tokens) := by
  obtain ⟨h0, h1, h2⟩ := hinv
  refine ⟨tryAcquire_inv rl now n ⟨h0, h1, h2⟩ ht hn,
    acquirePolls_inv n hn ts rl ⟨h0, h1, h2⟩ hts,
    refill_inv rl now ⟨h0, h1, h2⟩ ht,
    ⟨h0.trans h1, le_refl _, h2⟩,
    refill_inv rl now ⟨h0, h1, h2⟩ ht, ?_, ?_⟩
  · simp only [RateLimiter.tryAcquire]
    split_ifs with hge
    · simpa using hge
    · simpa using hge
  · intro hnow hfail
    have hz : (rl.refill now).tokens = rl.tokens := by
      simp only [RateLimiter.refill]
      rw [hnow]
      simp [min_eq_right h1]
    simp only [RateLimiter.tryAcquire] at hfail ⊢
    split_ifs at hfail ⊢ with hge
    simpa using hz

/-- Witness for C6: a full bucket of 5 with refill rate 10/s, accessed at
time 100ms asking for 1 token, with polls at 50ms and 150ms. -/
theorem rate_limiter_invariant_witness :
    RLInv (((RateLimiter.mk0 5 10 0).tryAcquire 100 1).2) ∧
    RLInv ((RateLimiter.mk0 5 10 0).acquirePolls 1 [50, 150]) ∧
    RLInv (((RateLimiter.mk0 5 10 0).getAvailableTokens 100).2) ∧
    RLInv ((RateLimiter.mk0 5 10 0).resetRL 100) ∧
    RLInv ((RateLimiter.mk0 5 10 0).refill 100) ∧
    (((RateLimiter.mk0 5 10 0).tryAcquire 100 1).1 = true ↔
      1 ≤ ((RateLimiter.mk0 5 10 0).refill 100).tokens) ∧
    ((100 : ℚ) = (RateLimiter.mk0 5 10 0).lastRefill →
      ((RateLimiter.mk0 5 10 0).tryAcquire 100 1).1 = false →
      ((RateLimiter.mk0 5 10 0).tryAcquire 100 1).2.tokens = (RateLimiter.mk0 5 10 0).tokens) :=
  rate_limiter_invariant (RateLimiter.mk0 5 10 0) 100 1 [50, 150]
    (by decide) (by decide) (by decide)
    (List.Chain.cons (by decide) (List.Chain.cons (by decide) List.Chain.nil))

/-- C7 : After t seconds with no acquisition the refilled token count is
tokens + min(capacity - tokens, t * refillRatePerSecond); the refill runs
before the availability check on every access including denials (the
denial result is exactly the refilled limiter, with lastRefill stamped);
getAvailableTokens returns the floor of the refilled count. -/
theorem rate_limiter_refill_formula (rl : RateLimiter) (t now n : ℚ)
    (hinv : RLInv rl) (htt : 0 ≤ t) :
    ((rl.refill (rl.lastRefill + 1000 * t)).tokens
       = rl.tokens + min (rl.maxTokens - rl.tokens) (t * rl.refillRate)) ∧
    ((rl.tryAcquire now n).2.lastRefill = now) ∧
    ((rl.tryAcquire now n).1 = false → (rl.tryAcquire now n).2 = rl.refill now) ∧
    ((rl.getAvailableTokens now).1 = ⌊(rl.refill now).tokens⌋) := by
  obtain ⟨h0, h1, h2⟩ := hinv
  refine ⟨?_, tryAcquire_lastRefill rl now n, ?_, rfl⟩
  · simp only [RateLimiter.refill]
    have hsub : rl.lastRefill + 1000 * t - rl.lastRefill = 1000 * t := by ring
    rw [hsub]
    have hdiv : 1000 * t / 1000 * rl.refillRate = t * rl.refillRate := by
      rw [mul_comm (1000 : ℚ) t, mul_div_assoc, div_self (by norm_num : (1000:ℚ) ≠ 0), mul_one]
    rw [hdiv]
    rcases le_total (rl.maxTokens - rl.tokens) (t * rl.refillRate) with hc | hc
    · rw [min_eq_left (by linarith), min_eq_left hc]
      ring
    · rw [min_eq_right (by linarith), min_eq_right hc]
  · intro hfail
    simp only [RateLimiter.tryAcquire] at hfail ⊢
    split_ifs at hfail ⊢
    rfl

/-- Witness for C7: 2 tokens of 5 at rate 10/s, one second elapses. -/
theorem rate_limiter_refill_formula_witness :
    ((({ maxTokens := 5, tokens := 2, refillRate := 10, lastRefill := 0 } : RateLimiter).refill
        (({ maxTokens := 5, tokens := 2, refillRate := 10, lastRefill := 0 } : RateLimiter).lastRefill + 1000 * 1)).tokens
       = ({ maxTokens := 5, tokens := 2, refillRate := 10, lastRefill := 0 } : RateLimiter).tokens
         + min (({ maxTokens := 5, tokens := 2, refillRate := 10, lastRefill := 0 } : RateLimiter).maxTokens
             - ({ maxTokens := 5, tokens := 2, refillRate := 10, lastRefill := 0 } : RateLimiter).tokens)
           (1 * ({ maxTokens := 5, tokens := 2, refillRate := 10, lastRefill := 0 } : RateLimiter).refillRate)) ∧
    ((({ maxTokens := 5, tokens := 2, refillRate := 10, lastRefill := 0 } : RateLimiter).tryAcquire 400 3).2.lastRefill = 400) ∧
    ((({ maxTokens := 5, tokens := 2, refillRate := 10, lastRefill := 0 } : RateLimiter).tryAcquire 400 3).1 = false →
      (({ maxTokens := 5, tokens := 2, refillRate := 10, lastRefill := 0 } : RateLimiter).tryAcquire 400 3).2
        = ({ maxTokens := 5, tokens := 2, refillRate := 10, lastRefill := 0 } : RateLimiter).refill 400) ∧
    ((({ maxTokens := 5, tokens := 2, refillRate := 10, lastRefill := 0 } : RateLimiter).getAvailableTokens 400).1
      = ⌊(({ maxTokens := 5, tokens := 2, refillRate := 10, lastRefill := 0 } : RateLimiter).refill 400).tokens⌋) :=
  rate_limiter_refill_formula
    ({ maxTokens := 5, tokens := 2, refillRate := 10, lastRefill := 0 } : RateLimiter)
    1 400 3 (by decide) (by decide)

/-!
RetryHandler lemmas and claims.
-/

/-- Skipping a block of `d` retryable failures: the loop entered at
attempt `a` makes `d` more invocations than the loop entered at `a + d`
and produces the same final result. -/
lemma retryLoop_skip (cfg : RetryConfig) (outcomes : Nat → Except JsError α)
    (errs : Nat → JsError) :
    ∀ (d a : Nat), a + d ≤ cfg.maxRetries →
      (∀ i, a ≤ i → i < a + d →
        outcomes i = .error (errs i) ∧ cfg.shouldRetry (errs i) = true) →
      (retryLoop cfg outcomes a).result = (retryLoop cfg outcomes (a + d)).result ∧
      (retryLoop cfg outcomes a).calls = (retryLoop cfg outcomes (a + d)).calls + d := by
  intro d
  induction d with
  | zero => intro a _ _; exact ⟨rfl, rfl⟩
  | succ k ih =>
      intro a hle hall
      have ha : a ≤ cfg.maxRetries := by omega
      have hane : a ≠ cfg.maxRetries := by omega
      have hout := hall a (le_refl a) (by omega)
      have hcond : ¬ (a = cfg.maxRetries ∨ ¬ cfg.shouldRetry (errs a)) := by
        push_neg
        exact ⟨hane, by simp [hout.2]⟩
      obtain ⟨ihres, ihcalls⟩ := ih (a + 1) (by omega)
        (fun i h1 h2 => hall i (by omega) (by omega))
      have hrw : a + (k + 1) = (a + 1) + k := by omega
      rw [retryLoop, dif_pos ha, hout.1]
      dsimp only
      rw [if_neg hcond]
      dsimp only
      rw [hrw]
      exact ⟨ihres, by rw [ihcalls]; omega⟩

/-- The loop stops at attempt `a` (one invocation, the attempt's outcome
returned or rethrown) when the attempt succeeds, is the last allowed one,
or fails non-retryably. -/
lemma retryLoop_terminal (cfg : RetryConfig) (outcomes : Nat → Except JsError α)
    (a : Nat) (ha : a ≤ cfg.maxRetries)
    (hstop : ∀ e, outcomes a = .error e → (a = cfg.maxRetries ∨ cfg.shouldRetry e = false)) :
    (retryLoop cfg outcomes a).calls = 1 ∧
    (retryLoop cfg outcomes a).result = outcomes a := by
  rw [retryLoop, dif_pos ha]
  cases houtcome : outcomes a with
  | ok v => exact ⟨rfl, rfl⟩
  | error e =>
      have hcond : a = cfg.maxRetries ∨ ¬ cfg.shouldRetry e := by
        rcases hstop e houtcome with h | h
        · exact Or.inl h
        · exact Or.inr (by simp [h])
      dsimp only
      rw [if_pos hcond]
      exact ⟨rfl, rfl⟩

/-- C8 : With maxRetries = m, if every attempt fails retryably, execute
invokes the operation exactly m+1 times and rethrows the last attempt's
error unwrapped; a non-retryable failure at attempt j propagates
immediately after j+1 invocations; a success at attempt j returns its
value after j+1 invocations. -/
theorem retry_execute_contract (cfg : RetryConfig) (outcomes : Nat → Except JsError α)
    (errs : Nat → JsError) (j : Nat) (e : JsError) (v : α) :
    ((∀ i, i ≤ cfg.maxRetries →
        outcomes i = .error (errs i) ∧ cfg.shouldRetry (errs i) = true) →
      (cfg.execute outcomes).calls = cfg.maxRetries + 1 ∧
      (cfg.execute outcomes).result = .error (errs cfg.maxRetries)) ∧
    (j ≤ cfg.maxRetries →
      (∀ i, i < j → outcomes i = .error (errs i) ∧ cfg.shouldRetry (errs i) = true) →
      outcomes j = .error e → cfg.shouldRetry e = false →
      (cfg.execute outcomes).calls = j + 1 ∧
      (cfg.execute outcomes).result = .error e) ∧
    (j ≤ cfg.maxRetries →
      (∀ i, i < j → outcomes i = .error (errs i) ∧ cfg.shouldRetry (errs i) = true) →
      outcomes j = .ok v →
      (cfg.execute outcomes).calls = j + 1 ∧
      (cfg.execute outcomes).result = .ok v) := by
  refine ⟨?_, ?_, ?_⟩
  · intro hall
    obtain ⟨hres, hcalls⟩ := retryLoop_skip cfg outcomes errs cfg.maxRetries 0
      (by omega) (fun i h1 h2 => hall i (by omega))
    obtain ⟨tcalls, tres⟩ := retryLoop_terminal cfg outcomes (0 + cfg.maxRetries)
      (by omega) (fun e' _ => Or.inl (by omega))
    simp only [Nat.zero_add] at hres hcalls tcalls tres
    refine ⟨?_, ?_⟩
    · show (retryLoop cfg outcomes 0).calls = cfg.maxRetries + 1
      omega
    · show (retryLoop cfg outcomes 0).result = .error (errs cfg.maxRetries)
      rw [hres, tres, (hall cfg.maxRetries (le_refl _)).1]
  · intro hj hpre hout hnoretry
    obtain ⟨hres, hcalls⟩ := retryLoop_skip cfg outcomes errs j 0
      (by omega) (fun i h1 h2 => hpre i (by omega))
    obtain ⟨tcalls, tres⟩ := retryLoop_terminal cfg outcomes (0 + j)
      (by omega) (fun e' he' => by
        rw [Nat.zero_add, hout] at he'
        have hee : e = e' := by simpa using he'
        exact Or.inr (hee ▸ hnoretry))
    simp only [Nat.zero_add] at hres hcalls tcalls tres
    refine ⟨?_, ?_⟩
    · show (retryLoop cfg outcomes 0).calls = j + 1
      omega
    · show (retryLoop cfg outcomes 0).result = .error e
      rw [hres, tres, hout]
  · intro hj hpre hout
    obtain ⟨hres, hcalls⟩ := retryLoop_skip cfg outcomes errs j 0
      (by omega) (fun i h1 h2 => hpre i (by omega))
    obtain ⟨tcalls, tres⟩ := retryLoop_terminal cfg outcomes (0 + j)
      (by omega) (fun e' he' => by
        rw [Nat.zero_add, hout] at he'
        simp at he')
    simp only [Nat.zero_add] at hres hcalls tcalls tres
    refine ⟨?_, ?_⟩
    · show (retryLoop cfg outcomes 0).calls = j + 1
      omega
    · show (retryLoop cfg outcomes 0).result = .ok v
      rw [hres, tres, hout]

/-- Witness for C8 with maxRetries = 2: an always-failing retryable
operation (3 calls, last error), a non-retryable first failure (1 call),
and a first-attempt success (1 call). -/
theorem retry_execute_contract_witness :
    (({ maxRetries := 2, initialDelay := 1000, maxDelay := 30000, exponentialBase := 2,
        shouldRetry := fun _ => true } : RetryConfig).execute
        (α := Nat) (fun _ => .error ⟨"Error", "e"⟩)).calls = 2 + 1 ∧
    (({ maxRetries := 2, initialDelay := 1000, maxDelay := 30000, exponentialBase := 2,
        shouldRetry := fun _ => true } : RetryConfig).execute
        (α := Nat) (fun _ => .error ⟨"Error", "e"⟩)).result = .error ⟨"Error", "e"⟩ ∧
    (({ maxRetries := 2, initialDelay := 1000, maxDelay := 30000, exponentialBase := 2,
        shouldRetry := fun _ => false } : RetryConfig).execute
        (α := Nat) (fun _ => .error ⟨"Error", "e"⟩)).calls = 0 + 1 ∧
    (({ maxRetries := 2, initialDelay := 1000, maxDelay := 30000, exponentialBase := 2,
        shouldRetry := fun _ => false } : RetryConfig).execute
        (α := Nat) (fun _ => .error ⟨"Error", "e"⟩)).result = .error ⟨"Error", "e"⟩ ∧
    (({ maxRetries := 2, initialDelay := 1000, maxDelay := 30000, exponentialBase := 2,
        shouldRetry := fun _ => true } : RetryConfig).execute
        (α := Nat) (fun _ => .ok 42)).calls = 0 + 1 ∧
    (({ maxRetries := 2, initialDelay := 1000, maxDelay := 30000, exponentialBase := 2,
        shouldRetry := fun _ => true } : RetryConfig).execute
        (α := Nat) (fun _ => .ok 42)).result = .ok 42 := by
  have hA := (retry_execute_contract
    ({ maxRetries := 2, initialDelay := 1000, maxDelay := 30000, exponentialBase := 2,
       shouldRetry := fun _ => true } : RetryConfig)
    (fun _ => .error ⟨"Error", "e"⟩) (fun _ => ⟨"Error", "e"⟩) 0 ⟨"Error", "e"⟩ (0 : Nat)).1
    (fun i _ => ⟨rfl, rfl⟩)
  have hB := (retry_execute_contract
    ({ maxRetries := 2, initialDelay := 1000, maxDelay := 30000, exponentialBase := 2,
       shouldRetry := fun _ => false } : RetryConfig)
    (fun _ => .error ⟨"Error", "e"⟩) (fun _ => ⟨"Error", "e"⟩) 0 ⟨"Error", "e"⟩ (0 : Nat)).2.1
    (by omega) (fun i h => absurd h (Nat.not_lt_zero i)) rfl rfl
  have hC := (retry_execute_contract
    ({ maxRetries := 2, initialDelay := 1000, maxDelay := 30000, exponentialBase := 2,
       shouldRetry := fun _ => true } : RetryConfig)
    (fun _ => .ok 42) (fun _ => ⟨"Error", "e"⟩) 0 ⟨"Error", "e"⟩ (42 : Nat)).2.2
    (by omega) (fun i h => absurd h (Nat.not_lt_zero i)) rfl
  exact ⟨hA.1, hA.2, hB.1, hB.2, hC.1, hC.2⟩

/-- The two loops agree on result, invocation count and onRetry
invocations; the synchronous loop never sleeps. -/
lemma retryLoop_sync_eq (cfg : RetryConfig) (outcomes : Nat → Except JsError α) :
    ∀ (k a : Nat), cfg.maxRetries + 1 - a ≤ k →
      (retryLoop cfg outcomes a).result = (retryLoopSync cfg outcomes a).result ∧
      (retryLoop cfg outcomes a).calls = (retryLoopSync cfg outcomes a).calls ∧
      (retryLoop cfg outcomes a).onRetryCalls = (retryLoopSync cfg outcomes a).onRetryCalls ∧
      (retryLoopSync cfg outcomes a).sleeps = [] := by
  intro k
  induction k with
  | zero =>
      intro a ha
      have hgt : ¬ a ≤ cfg.maxRetries := by omega
      rw [retryLoop, retryLoopSync, dif_neg hgt, dif_neg hgt]
      exact ⟨rfl, rfl, rfl, rfl⟩
  | succ k ih =>
      intro a ha
      by_cases hle : a ≤ cfg.maxRetries
      · rw [retryLoop, retryLoopSync, dif_pos hle, dif_pos hle]
        cases houtcome : outcomes a with
        | ok v => exact ⟨rfl, rfl, rfl, rfl⟩
        | error e =>
            dsimp only
            by_cases hcond : a = cfg.maxRetries ∨ ¬ cfg.shouldRetry e
            · rw [if_pos hcond, if_pos hcond]
              exact ⟨rfl, rfl, rfl, rfl⟩
            · rw [if_neg hcond, if_neg hcond]
              obtain ⟨h1, h2, h3, h4⟩ := ih (a + 1) (by omega)
              dsimp only
              exact ⟨h1, by rw [h2], by rw [h3], h4⟩
      · rw [retryLoop, retryLoopSync, dif_neg hle, dif_neg hle]
        exact ⟨rfl, rfl, rfl, rfl⟩

/-- C9 : executeSync is behaviorally equivalent to execute modulo backoff
delays: same invocation count, same success value or identity-same final
error, same onRetry invocations with the same arguments; executeSync never
suspends for a backoff delay. -/
theorem executeSync_equiv_execute (cfg : RetryConfig) (outcomes : Nat → Except JsError α) :
    (cfg.execute outcomes).result = (cfg.executeSync outcomes).result ∧
    (cfg.execute outcomes).calls = (cfg.executeSync outcomes).calls ∧
    (cfg.execute outcomes).onRetryCalls = (cfg.executeSync outcomes).onRetryCalls ∧
    (cfg.executeSync outcomes).sleeps = [] :=
  retryLoop_sync_eq cfg outcomes (cfg.maxRetries + 1) 0 (by omega)
